import Mathlib

/-!
Verification of the dronefly-core generic text formatters
(`src/dronefly/core/formatters/generic.py`) against their natural-language
specification.

Conventions of the shallow embedding:
* Python strings are Lean `String` (both measure length in code points).
* Python `None`-able values are `Option`.
* Python runtime faults reachable in this module (`KeyError` on a rank
  lookup, `UnboundLocalError` in `format_quality_grade`, `IndexError` from
  `.split()[0]` on an empty token list or `del names_fit[-1]` on an empty
  list, `TypeError` from `%`-formatting) are modelled as `none` results.
* The constants module `dronefly.core.constants` and
  `dronefly.core.formatters.constants` are not part of the sources; the
  tables they export are modelled from the spec where so noted.
* The behavior of the third-party `inflect` engine is embedded only as far
  as this module exercises it, with each embedding documented at its
  definition.
-/

namespace Dronefly

/-- Models Python `str.join`: `py_join d [a, b, c] = a ++ d ++ b ++ d ++ c`,
`py_join d [] = ""`. -/
def py_join (d : String) : List String → String
  | [] => ""
  | [x] => x
  | x :: y :: ys => x ++ d ++ py_join d (y :: ys)

/-- Split a character list at every character satisfying `q`, keeping empty
chunks, as Python `str.split(sep)` does for an explicit one-character
separator.  `splitOnP q [] = [[]]`, matching `"".split(sep) == ['']`. -/
def splitOnP (q : Char → Bool) : List Char → List (List Char)
  | [] => [[]]
  | c :: cs =>
    let rest := splitOnP q cs
    if q c then [] :: rest
    else
      match rest with
      | r :: rs => (c :: r) :: rs
      | [] => [[c]]

/-- Models Python `s.split(sep)` for a one-character separator `sep`:
every occurrence splits, empty fields are kept. -/
def pySplitChar (sep : Char) (s : String) : List String :=
  (splitOnP (fun c => c == sep) s.data).map String.mk

/-- Models Python `s.split()` (no argument): tokens are the maximal runs of
non-whitespace characters; empty fields are dropped. -/
def pySplitWs (s : String) : List String :=
  ((splitOnP Char.isWhitespace s.data).filter (fun l => !l.isEmpty)).map String.mk

/-- Models Python `str.capitalize`: first character uppercased, the rest
lowercased. -/
def pyCapitalize (s : String) : String :=
  match s.data with
  | [] => ""
  | c :: cs => String.mk (c.toUpper :: cs.map Char.toLower)

/-- Finds the unique occurrence of the `%s` conversion in a format string,
returning the characters before and after it, and `none` when the string
contains no `%s` or more than one (Python `%`-formatting with a single
argument raises `TypeError` in those cases).  This models Python
`fmt % arg` for format strings whose only conversion specifier is `%s`,
which is the documented contract of `names_format`. -/
def percent_split : List Char → Option (List Char × List Char)
  | [] => none
  | '%' :: 's' :: rest =>
    match percent_split rest with
    | some _ => none
    | none => some ([], rest)
  | c :: rest =>
    match percent_split rest with
    | some (pre, post) => some (c :: pre, post)
    | none => none

/-- Models Python `fmt % arg` under the contract that `fmt` holds exactly
one `%s` and no other conversion (see `percent_split`). -/
def pct_s (fmt arg : String) : Option String :=
  match percent_split fmt.data with
  | some (pre, post) => some (String.mk (pre ++ arg.data ++ post))
  | none => none

/-- Group a reversed digit list in threes with commas, helper for
`py_thousands`. -/
def commaRev : List Char → List Char
  | a :: b :: c :: d :: rest => a :: b :: c :: ',' :: commaRev (d :: rest)
  | l => l

/-- Models Python `f"{n:,}"` for a non-negative integer: decimal digits
grouped in threes with commas. -/
def py_thousands (n : Nat) : String :=
  String.mk (commaRev (toString n).data.reverse).reverse

/-- Python truthiness of an optional string: `None` and `""` are falsy. -/
def truthy_str : Option String → Bool
  | none => false
  | some s => !s.isEmpty

/-- Modelled from the spec: the base URL of the wildlife-observation web
site, exported by `dronefly.core.formatters.constants` (module absent from
the sources).  Only its non-emptiness is relevant to the formatters. -/
def WWW_BASE_URL : String := "https://www.inaturalist.org"

/-- Modelled from the spec: the fixed rank-to-specificity-level table
`RANK_LEVELS` exported by `dronefly.core.constants` (module absent from the
sources).  The spec gives a strict total order kingdom > phylum > class >
order > family > genus > species > subspecies-level ranks, with lookup of a
rank outside the table a fatal `KeyError` (modelled as `none`). -/
def RANK_LEVELS (rank : String) : Option Nat :=
  match rank with
  | "kingdom" => some 70
  | "phylum" => some 60
  | "class" => some 50
  | "order" => some 40
  | "family" => some 30
  | "genus" => some 20
  | "species" => some 10
  | "subspecies" => some 5
  | "variety" => some 5
  | "form" => some 5
  | _ => none

/-- Modelled from the spec: the trinomial-eligible rank-to-abbreviation
table `TRINOMIAL_ABBR` exported by `dronefly.core.constants` (module absent
from the sources).  The spec and the source docstring name the
subspecies-level abbreviations "ssp." and "var.". -/
def TRINOMIAL_ABBR (rank : String) : Option String :=
  match rank with
  | "subspecies" => some "ssp."
  | "variety" => some "var."
  | _ => none

/-- Modelled from the spec: the fixed subset of ranks treated as "major"
(`TAXON_PRIMARY_RANKS` of `dronefly.core.constants`, module absent from the
sources), bolded in hierarchy mode. -/
def TAXON_PRIMARY_RANKS : List String :=
  ["kingdom", "phylum", "class", "order", "family", "genus", "species"]

/-- The two delimiters of `TAXON_LIST_DELIMITER`, indexed by the
`hierarchy` flag as in `TAXON_LIST_DELIMITER[int(hierarchy)]`. -/
def TAXON_LIST_DELIMITER (hierarchy : Bool) : String :=
  if hierarchy then " > " else ", "

/-- An entry of `taxon.names`: a dict with optional `name` and `locale`
keys (read with `.get`, hence `Option`) and an `is_valid` flag. -/
structure TaxonNameEntry where
  name : Option String
  locale : Option String
  is_valid : Bool
deriving DecidableEq, Repr

/-- The fields of a `pyinaturalist.Taxon` record read by the formatters
under verification. -/
structure Taxon where
  name : String
  rank : String
  preferred_common_name : Option String
  matched_term : Option String
  names : List TaxonNameEntry
  is_active : Bool
  observations_count : Nat
  id : Nat
deriving DecidableEq, Repr

/-- The fields of a `pyinaturalist.ConservationStatus` record read by
`format_taxon_conservation_status`. -/
structure ConservationStatus where
  display_name : String
  authority : String
  url : Option String
deriving DecidableEq, Repr

/-- Embeds `format_link`: wrap `link_text` in a Markdown link when `url` is
truthy, else return it unchanged. -/
def format_link (link_text : String) (url : Option String) : String :=
  match url with
  | some u => if u.isEmpty then link_text else "[" ++ link_text ++ "](" ++ u ++ ")"
  | none => link_text

/-- The fixed inactive-taxon marker appended by `format_taxon_name`:
a space, U+2757 heavy exclamation mark, and the words "Inactive Taxon". -/
def INACTIVE_MARKER : String := " ❗ Inactive Taxon"

/-- Embeds the common-name resolution of `format_taxon_name` (its first
`if with_common:` block): locale-preferred lookup, fallback to
`preferred_common_name`, then the `with_term` / `hierarchy` selection. -/
def resolve_common (taxon : Taxon) (with_term hierarchy with_common : Bool)
    (lang : Option String) : Option String :=
  if with_common then
    let pcn0 : Option String :=
      if truthy_str lang && !taxon.names.isEmpty then
        match (taxon.names.filter (fun n => n.locale == lang)).head? with
        | some n => n.name
        | none => none
      else none
    let pcn := if truthy_str pcn0 then pcn0 else taxon.preferred_common_name
    if with_term then
      if taxon.matched_term ∉ ([none, some taxon.name, pcn] : List (Option String)) then
        taxon.matched_term
      else pcn
    else if hierarchy then none else pcn
  else none

/-- The parenthesized common-name suffix of `format_taxon_name`
(`f"{name} ({common})" if common else name`): empty when `common` is
falsy. -/
def common_suffix : Option String → String
  | some c => if c.isEmpty then "" else " (" ++ c ++ ")"
  | none => ""

/-- The inactive-taxon suffix of `format_taxon_name`
(`if not taxon.is_active: full_name += …`). -/
def inactive_suffix (is_active : Bool) : String :=
  if is_active then "" else INACTIVE_MARKER

/-- The name-styling steps of `format_taxon_name` (source lines between the
rank-level lookup and the common-name suffix): italicize at genus level and
below, then either the hierarchy/rank prefix treatment (above species
level) or the trinomial abbreviation insertion (species level and below).
Note the source italicizes before the trinomial split, so the split runs on
the name with the surrounding asterisks attached. -/
def styled_name (taxon : Taxon) (hierarchy with_rank : Bool) (rank_level : Nat) : String :=
  let rank := taxon.rank
  let name1 :=
    if rank_level ≤ (RANK_LEVELS "genus").getD 0 then "*" ++ taxon.name ++ "*" else taxon.name
  if (RANK_LEVELS "species").getD 0 < rank_level then
    if hierarchy then
      if TAXON_PRIMARY_RANKS.contains rank then "\n> **" ++ name1 ++ "**" else name1
    else if with_rank then
      pyCapitalize rank ++ " " ++ name1
    else name1
  else
    match TRINOMIAL_ABBR rank with
    | some abbr =>
      match pySplitChar ' ' name1 with
      | [t1, t2, t3] => t1 ++ " " ++ t2 ++ "* " ++ abbr ++ " *" ++ t3
      | _ => name1
    | none => name1

/-- Embeds `format_taxon_name`.  A rank outside `RANK_LEVELS` raises
`KeyError` in the source, modelled as `none`.  The final string is
assembled as the styled name followed by the (possibly empty) common-name
and inactive-taxon suffixes, exactly as the source's two trailing steps
do. -/
def format_taxon_name (taxon : Taxon) (with_term hierarchy with_rank with_common : Bool)
    (lang : Option String) : Option String := do
  let common := resolve_common taxon with_term hierarchy with_common lang
  let rank_level ← RANK_LEVELS taxon.rank
  some (styled_name taxon hierarchy with_rank rank_level ++ common_suffix common ++
    inactive_suffix taxon.is_active)

/-- The placeholder `more(count)` of `fit_names`: `"and %d more" % count`. -/
def more (count : Nat) : String := "and " ++ toString count ++ " more"

/-- The running length `formatted_len(name)` of `fit_names`: one delimiter
charged per already-accepted entry, plus the candidate's length. -/
def formatted_len (delimiter : String) (names_fit : List String) (name : String) : Nat :=
  (names_fit.map (fun item => item.length + delimiter.length)).sum + name.length

/-- Embeds the `while overflow(more(unprocessed))` shrink loop of
`fit_names`.  `names_fit` is kept in reverse order (most recently accepted
first) so that the source's `del names_fit[-1]` is the structural tail;
`del` on an empty list raises `IndexError`, modelled as `none`. -/
def fit_shrink (delimiter : String) (available_len : Int) :
    List String → Nat → Option (List String)
  | names_fit, unprocessed =>
    if available_len < (formatted_len delimiter names_fit (more unprocessed) : Int) then
      match names_fit with
      | [] => none
      | _ :: rest => fit_shrink delimiter available_len rest (unprocessed + 1)
    else
      some (names_fit.reverse ++ [more unprocessed])

/-- Embeds the `for name in names` loop of `fit_names`.  The accumulator is
kept in reverse order (see `fit_shrink`); on the first overflow
`unprocessed = len(names) - len(names_fit)` is the length of the
unconsumed suffix including the overflowing name. -/
def fit_go (delimiter : String) (available_len : Int) :
    List String → List String → Option (List String)
  | names_fit, [] => some names_fit.reverse
  | names_fit, name :: rest =>
    if available_len < (formatted_len delimiter names_fit name : Int) then
      fit_shrink delimiter available_len names_fit (rest.length + 1)
    else
      fit_go delimiter available_len (name :: names_fit) rest

/-- Embeds `fit_names` of `format_taxon_names`:
`available_len = max_len - (len(names_format) - 2)`. -/
def fit_names (names : List String) (max_len : Int) (names_format delimiter : String) :
    Option (List String) :=
  fit_go delimiter (max_len - ((names_format.length : Int) - 2)) [] names

/-- Embeds the list comprehension of `format_taxon_names` building the
per-taxon formatted names; a fault in any `format_taxon_name` call
propagates. -/
def format_names_list (taxa : List Taxon) (with_term hierarchy : Bool)
    (lang : Option String) : Option (List String) :=
  match taxa with
  | [] => some []
  | t :: ts =>
    match format_taxon_name t with_term hierarchy true true lang,
        format_names_list ts with_term hierarchy lang with
    | some n, some ns => some (n :: ns)
    | _, _ => none

/-- Embeds `format_taxon_names`: format each taxon, truncate with
`fit_names` when `max_len` is truthy (non-zero), then substitute the joined
list into `names_format`. -/
def format_taxon_names (taxa : List Taxon) (with_term : Bool) (names_format : String)
    (max_len : Int) (hierarchy : Bool) (lang : Option String) : Option String := do
  let delimiter := TAXON_LIST_DELIMITER hierarchy
  let names ← format_names_list taxa with_term hierarchy lang
  let names ← if max_len ≠ 0 then fit_names names max_len names_format delimiter else some names
  pct_s names_format (py_join delimiter names)

/-- Embeds `format_quality_grade`.  The two dict reads
`options.get("quality_grade")` and `options.get("verifiable")` are the two
arguments.  The locals `research` / `needsid` are assigned only when
`"any"` is absent from the comma-split tokens (or when the truthy
`verifiable` override fires); reading them unassigned raises
`UnboundLocalError` in the source, modelled as `none`. -/
def format_quality_grade (quality_grade verifiable : Option String) :
    Option (List String) :=
  let tokens := pySplitChar ',' ((quality_grade.getD ""))
  let rn : Option (Bool × Bool) :=
    if !tokens.contains "any" then some (tokens.contains "research", tokens.contains "needs_id")
    else none
  let rn :=
    if truthy_str verifiable then
      if verifiable == some "true" || verifiable == some "" then some (true, true) else rn
    else rn
  if verifiable == some "false" then
    some ["*not Verifiable*"]
  else
    match rn with
    | none => none
    | some (research, needsid) =>
      if research && needsid then some ["*Verifiable*"]
      else
        some ((if research then ["*Research Grade*"] else []) ++
          (if needsid then ["*Needs ID*"] else []))

/-- Embeds the count values that `inflect.engine().plural(word, count)`
treats as singular (`pl_count_one`, with the classical "zero" option at its
default off): the pluralizer stringifies `count` and compares against
these. -/
def pl_count_one : List String := ["1", "a", "an", "one", "each", "every", "this", "that"]

/-- Embeds `inflect.engine().plural("observation", count)` where the source
passes a *string* as `count`: singular exactly when the stringified count
is one of `pl_count_one`, else the regular plural "observations". -/
def plural_observation (count : String) : String :=
  if pl_count_one.contains count then "observation" else "observations"

/-- Embeds `TaxonFormatter.ObsCountFormatter.url`. -/
def obs_count_url (taxon : Taxon) : String :=
  WWW_BASE_URL ++ "/observations?taxon_id=" ++ toString taxon.id

/-- Embeds `TaxonFormatter.ObsCountFormatter.link`: the thousands-grouped
count wrapped in a link to the observations page. -/
def obs_count_link (taxon : Taxon) : String :=
  format_link (py_thousands taxon.observations_count) (some (obs_count_url taxon))

/-- Embeds `TaxonFormatter.ObsCountFormatter.description`.  Note the source
passes the *link string* `count` (not the numeric count) to the
pluralizer. -/
def obs_count_description (taxon : Taxon) : String :=
  let count := obs_count_link taxon
  count ++ " " ++ plural_observation count

/-- Embeds `inflect.engine().number_to_words` as far as this module reaches
it: inflect strips the non-digit characters from its stringified argument
and words the remaining digits.  The source calls it exactly once, on the
literal backreference text `"\1"` (whose digit content is the single digit
1), so the embedding words single digits and is unreached elsewhere. -/
def number_to_words (s : String) : String :=
  match s.data.filter Char.isDigit with
  | ['0'] => "zero"
  | ['1'] => "one"
  | ['2'] => "two"
  | ['3'] => "three"
  | ['4'] => "four"
  | ['5'] => "five"
  | ['6'] => "six"
  | ['7'] => "seven"
  | ['8'] => "eight"
  | ['9'] => "nine"
  | _ => ""

/-- Embeds `re.sub(r"[0-9]", repl, s)` for a replacement text free of
backreference syntax: each decimal digit is replaced by `repl`. -/
def re_sub_digits (repl : String) (s : String) : String :=
  String.mk (s.data.flatMap (fun c => if c.isDigit then repl.data else [c]))

/-- Is this character a regex word character (`\w` over ASCII), used for
the `\b` boundaries in the inflect article rules. -/
def wordChar (c : Char) : Bool := c.isAlphanum || c == '_'

/-- Does the word start with this prefix followed by a `\b` word boundary
(end of word or a non-word character). -/
def prefixThenBoundary (px : List Char) (l : List Char) : Bool :=
  px.isPrefixOf l &&
    (match l.drop px.length with
     | [] => true
     | c :: _ => !wordChar c)

/-- The case-sensitive capital-abbreviation rule `A_abbrev` of inflect
("an FBI", "an NT"): first two characters `[FHLMNRSX][A-Z]`, except words
the negative lookahead pronounces as ordinary words (FJO, [HLMNS]Y.,
RY[EO], SQU, or F[LR]?/[HL]/MN?/N/RH?/S[CHKLMNPTVW]?/X(YL)? followed by a
capital vowel). -/
def abbrev_an (l : List Char) : Bool :=
  match l with
  | c1 :: c2 :: rest =>
    let capVowelAt : List Char → Bool := fun m =>
      match m with
      | v :: _ => v == 'A' || v == 'E' || v == 'I' || v == 'O' || v == 'U'
      | [] => false
    let excluded :=
      (c1 == 'F' && c2 == 'J' && (match rest with | 'O' :: _ => true | _ => false)) ||
      ("HLMNS".data.contains c1 && c2 == 'Y' && !rest.isEmpty) ||
      (c1 == 'R' && c2 == 'Y' && (match rest with | c3 :: _ => c3 == 'E' || c3 == 'O' | _ => false)) ||
      (c1 == 'S' && c2 == 'Q' && (match rest with | 'U' :: _ => true | _ => false)) ||
      -- F[LR]? / [HL] / MN? / N / RH? / S[CHKLMNPTVW]? / X(YL)? then capital vowel
      (c1 == 'F' && ((c2 == 'L' || c2 == 'R') && capVowelAt rest || capVowelAt (c2 :: rest))) ||
      ((c1 == 'H' || c1 == 'L') && capVowelAt (c2 :: rest)) ||
      (c1 == 'M' && (c2 == 'N' && capVowelAt rest || capVowelAt (c2 :: rest))) ||
      (c1 == 'N' && capVowelAt (c2 :: rest)) ||
      (c1 == 'R' && (c2 == 'H' && capVowelAt rest || capVowelAt (c2 :: rest))) ||
      (c1 == 'S' && ("CHKLMNPTVW".data.contains c2 && capVowelAt rest || capVowelAt (c2 :: rest))) ||
      (c1 == 'X' && (c2 == 'Y' && (match rest with | 'L' :: r => capVowelAt r | _ => false) ||
        capVowelAt (c2 :: rest)))
    "FHLMNRSX".data.contains c1 && c2.isUpper && c2.isAlpha && !excluded
  | _ => false

/-- The rule chain deciding between "a" and "an" in
`inflect.engine().a(word)` for a single whitespace-free word (the only
shape the source passes): the
engine's ordered `_indef_article` rule list, true for "an", false for "a".  Rules
in the engine's order: ordinal forms, the explicit "an" words, single
letters sounded with a leading vowel, capital abbreviations, dotted or
dashed single letters, leading consonant, the special vowel-forms
("eu"/"ew", "once"/"one", "onetime", "uni…", "u"+consonant+vowel, "ukr",
the explicit "a" words, capital "UN"/"UK"), leading vowel, and the
"y-before-consonant" clusters; otherwise "a". -/
def indef_article_an (w : String) : Bool :=
  let orig := w.data
  let l := orig.map Char.toLower
  let vowel : Char → Bool := fun c => c == 'a' || c == 'e' || c == 'i' || c == 'o' || c == 'u'
  match l, orig with
  | [], _ => false
  | c1 :: rest1, o1 :: orest1 =>
    let thAfter : Bool :=
      match rest1 with
      | 't' :: 'h' :: _ => true
      | '-' :: 't' :: 'h' :: _ => true
      | _ => false
    if thAfter && "bcdgjkpqtuvwyz".data.contains c1 then false
    else if thAfter && "aefhilmnorsx".data.contains c1 then true
    else if (["euler", "heir", "honest", "honou", "honor", "mpeg"].any
        (fun px => px.data.isPrefixOf l) ||
        ("hour".data.isPrefixOf l && !"houri".data.isPrefixOf l)) then true
    else if rest1 = [] && "aefhilmnorsx".data.contains c1 then true
    else if rest1 = [] && "bcdgjkpqtuvwyz".data.contains c1 then false
    else if abbrev_an (o1 :: orest1) then true
    else if (match rest1 with | c2 :: _ => c2 == '.' || c2 == '-' | [] => false) then
      (if "aefhilmnorsx".data.contains c1 then true
       else if c1.isAlpha then false
       else if !(vowel c1 || c1 == 'y') then false else true)
    else if !(vowel c1 || c1 == 'y') then false
    else if c1 == 'e' && (match rest1 with | c2 :: _ => c2 == 'u' || c2 == 'w' | [] => false) then false
    else if prefixThenBoundary "once".data l || prefixThenBoundary "one".data l then false
    else if prefixThenBoundary "onetime".data l then false
    else if "uni".data.isPrefixOf l &&
        (match l with
         | _ :: _ :: _ :: c4 :: _ => !(c4 == 'n' || c4 == 'm' || c4 == 'd') ||
            "unimo".data.isPrefixOf l
         | _ => false) then false
    else if c1 == 'u' &&
        (match rest1 with
         | c2 :: c3 :: _ => "bcfhjkqrst".data.contains c2 && vowel c3
         | _ => false) then false
    else if "ukr".data.isPrefixOf l then false
    else if "unabomber".data.isPrefixOf l || "unanimous".data.isPrefixOf l ||
        "US".data.isPrefixOf (o1 :: orest1) then false
    else if o1 == 'U' && (match orest1 with | c2 :: _ => c2 == 'N' || c2 == 'K' | [] => false)
      then false
    else if vowel c1 then true
    else if ["ybl", "ybo", "ybr", "ycla", "ycle", "yfere", "ygg", "ypi", "ypo", "yps",
        "yrou", "ytt"].any (fun px => px.data.isPrefixOf l) then true
    else false
  | _ :: _, [] => false

/-- Embeds the indefinite-article choice of `inflect.engine().a(word)`:
"an" when the `indef_article_an` rule chain selects it, else "a". -/
def indef_article (w : String) : String :=
  if indef_article_an w then "an" else "a"

/-- Embeds `format_taxon_conservation_status`.  In brief inflected mode the
source takes `.split()[0]` of the digit-substituted label (an `IndexError`
— modelled as `none` — when the label has no token) and the first word of
`p.a(first_word)`, which for a whitespace-free word is the article chosen
by `indef_article`. -/
def format_taxon_conservation_status (status : ConservationStatus)
    (brief inflect : Bool) : Option String :=
  let description := status.display_name
  if brief then
    let linked_status := format_link description status.url
    if inflect then
      let repl := " " ++ number_to_words "\\1" ++ " "
      match pySplitWs (re_sub_digits repl description) with
      | [] => none
      | first_word :: _ =>
        let article := indef_article first_word
        some (py_join " " [article, linked_status])
    else
      some linked_status
  else
    let linked_status := format_link status.authority status.url
    some (description ++ " (" ++ linked_status ++ ")")

/-! ### Helper lemmas -/

theorem splitOnP_of_no_sep (q : Char → Bool) (xs : List Char)
    (h : ∀ c ∈ xs, q c = false) : splitOnP q xs = [xs] := by
  induction xs with
  | nil => rfl
  | cons c cs ih =>
    have hc : q c = false := h c (by simp)
    have hrest : splitOnP q cs = [cs] := ih (fun d hd => h d (by simp [hd]))
    simp [splitOnP, hc, hrest]

theorem splitOnP_cons_sep (q : Char → Bool) (c : Char) (ys : List Char)
    (h : q c = true) : splitOnP q (c :: ys) = [] :: splitOnP q ys := by
  simp [splitOnP, h]

theorem splitOnP_append_no_sep (q : Char → Bool) (xs ys : List Char) (r : List Char)
    (rs : List (List Char)) (h : ∀ c ∈ xs, q c = false)
    (hys : splitOnP q ys = r :: rs) : splitOnP q (xs ++ ys) = (xs ++ r) :: rs := by
  induction xs with
  | nil => simpa using hys
  | cons c cs ih =>
    have hc : q c = false := h c (by simp)
    have hrest : splitOnP q (cs ++ ys) = (cs ++ r) :: rs :=
      ih (fun d hd => h d (by simp [hd]))
    simp [splitOnP, hc, hrest]

/-! ### C8: a rank outside the rank table is a surfaced lookup failure -/

/-- C8: for every taxon whose rank is absent from the rank-to-level table,
`format_taxon_name` fails with a lookup error surfaced to the caller
(modelled as `none`) rather than returning a silently defaulted result. -/
theorem c8_missing_rank_fault (taxon : Taxon) (wt hi wr wc : Bool) (lang : Option String)
    (hrank : RANK_LEVELS taxon.rank = none) :
    format_taxon_name taxon wt hi wr wc lang = none := by
  simp [format_taxon_name, hrank]

/-- Witness for C8 at a concrete taxon with the unknown rank "frobnitz". -/
theorem c8_missing_rank_fault_witness :
    RANK_LEVELS "frobnitz" = none ∧
      format_taxon_name
        { name := "X", rank := "frobnitz", preferred_common_name := none,
          matched_term := none, names := [], is_active := true,
          observations_count := 0, id := 1 } false false true true none = none :=
  ⟨by decide,
    c8_missing_rank_fault
      { name := "X", rank := "frobnitz", preferred_common_name := none,
        matched_term := none, names := [], is_active := true,
        observations_count := 0, id := 1 } false false true true none (by decide)⟩

/-! ### C7: inactive taxa always end with the inactive-taxon marker -/

/-- C7: for every taxon flagged inactive, the output of
`format_taxon_name` ends with the fixed marker `" ❗ Inactive Taxon"`,
for every combination of the `with_term`, `hierarchy`, `with_rank`,
`with_common` and `lang` options. -/
theorem c7_inactive_marker (taxon : Taxon) (wt hi wr wc : Bool) (lang : Option String)
    (s : String) (hact : taxon.is_active = false)
    (hs : format_taxon_name taxon wt hi wr wc lang = some s) :
    ∃ stem : String, s = stem ++ INACTIVE_MARKER := by
  cases hrank : RANK_LEVELS taxon.rank with
  | none => simp [format_taxon_name, hrank] at hs
  | some lv =>
    simp [format_taxon_name, hrank, hact, inactive_suffix] at hs
    exact ⟨_, hs.symm⟩

/-- Witness for C7 at a concrete inactive kingdom-rank taxon in hierarchy
mode. -/
theorem c7_inactive_marker_witness :
    ∃ stem : String, "\n> **Animalia** ❗ Inactive Taxon" = stem ++ INACTIVE_MARKER :=
  c7_inactive_marker
    { name := "Animalia", rank := "kingdom", preferred_common_name := none,
      matched_term := none, names := [], is_active := false,
      observations_count := 0, id := 1 } false true true true none
    "\n> **Animalia** ❗ Inactive Taxon" (by decide) (by decide)

/-! ### C2: quality grade "any" with no truthy verifiable value faults -/

/-- C2 (code bug): with a `quality_grade` containing the token "any" and no
`verifiable` key, `format_quality_grade` reads the locals `research` and
`needsid` without ever assigning them (`UnboundLocalError`), modelled as
`none` — it does not return a list of adjectives as the claim requires. -/
theorem c2_any_unassigned_fault :
    format_quality_grade (some "any") none = none := by decide

/-! ### C10: verifiable "" behaves exactly like an absent verifiable key -/

/-- C10: for every options mapping, `format_quality_grade` with
`verifiable` set to the empty string returns the same result as with the
`verifiable` key absent: the empty string is rejected by the enclosing
truthiness check before the `["true", ""]` membership test can fire, and
it also fails the `== "false"` test, exactly as `None` does. -/
theorem c10_empty_verifiable_eq_absent (quality_grade : Option String) :
    format_quality_grade quality_grade (some "") =
      format_quality_grade quality_grade none := rfl

theorem mk_data (s : String) : String.mk s.data = s := rfl

theorem pySplitChar_three (T1 T2 T3 : String)
    (h1 : ∀ c ∈ T1.data, c ≠ ' ') (h2 : ∀ c ∈ T2.data, c ≠ ' ')
    (h3 : ∀ c ∈ T3.data, c ≠ ' ') :
    pySplitChar ' ' ("*" ++ (T1 ++ " " ++ T2 ++ " " ++ T3) ++ "*") =
      ["*" ++ T1, T2, T3 ++ "*"] := by
  have q3 : splitOnP (fun c => c == ' ') (T3.data ++ ['*']) = [T3.data ++ ['*']] :=
    splitOnP_of_no_sep _ _ (by
      intro c hc
      rcases List.mem_append.mp hc with hm | hm
      · simpa using h3 c hm
      · simp at hm; simp [hm])
  have q3b : splitOnP (fun c => c == ' ') (' ' :: (T3.data ++ ['*'])) =
      [] :: [T3.data ++ ['*']] := by
    rw [splitOnP_cons_sep _ _ _ (by simp), q3]
  have q2 : splitOnP (fun c => c == ' ') (T2.data ++ ' ' :: (T3.data ++ ['*'])) =
      T2.data :: [T3.data ++ ['*']] := by
    have := splitOnP_append_no_sep (fun c => c == ' ') T2.data
      (' ' :: (T3.data ++ ['*'])) [] [T3.data ++ ['*']]
      (by intro c hc; simpa using h2 c hc) q3b
    simpa using this
  have q2b : splitOnP (fun c => c == ' ')
      (' ' :: (T2.data ++ ' ' :: (T3.data ++ ['*']))) =
      [] :: (T2.data :: [T3.data ++ ['*']]) := by
    rw [splitOnP_cons_sep _ _ _ (by simp), q2]
  have q1 : splitOnP (fun c => c == ' ')
      (('*' :: T1.data) ++ ' ' :: (T2.data ++ ' ' :: (T3.data ++ ['*']))) =
      ('*' :: T1.data) :: T2.data :: [T3.data ++ ['*']] := by
    have := splitOnP_append_no_sep (fun c => c == ' ') ('*' :: T1.data)
      (' ' :: (T2.data ++ ' ' :: (T3.data ++ ['*'])))
      [] (T2.data :: [T3.data ++ ['*']])
      (by
        intro c hc
        rcases List.mem_cons.mp hc with hm | hm
        · simp [hm]
        · simpa using h1 c hm) q2b
    simpa using this
  have hdata : ("*" ++ (T1 ++ " " ++ T2 ++ " " ++ T3) ++ "*").data =
      ('*' :: T1.data) ++ ' ' :: (T2.data ++ ' ' :: (T3.data ++ ['*'])) := by
    simp [String.data_append]
  unfold pySplitChar
  rw [hdata, q1]
  simp only [List.map]
  refine congrArg₂ _ ?_ (congrArg₂ _ (mk_data T2) (congrArg₂ _ ?_ rfl))
  · apply String.ext
    simp [String.data_append]
  · apply String.ext
    simp [String.data_append]

/-! ### C5: trinomial abbreviation insertion -/

/-- C5: for every taxon whose rank is in the trinomial-eligible
abbreviation table (hence at subspecies rank level) and whose scientific
name splits into exactly three space-separated tokens T1 T2 T3, the
formatted name contains the pattern `*T1 T2* ABBR *T3*` with the table's
abbreviation unitalicized between the second and third tokens, for every
option combination. -/
theorem c5_trinomial (t : Taxon) (wt hi wr wc : Bool) (lang : Option String)
    (abbr T1 T2 T3 : String)
    (habbr : TRINOMIAL_ABBR t.rank = some abbr)
    (hname : t.name = T1 ++ " " ++ T2 ++ " " ++ T3)
    (h1 : ∀ c ∈ T1.data, c ≠ ' ') (h2 : ∀ c ∈ T2.data, c ≠ ' ')
    (h3 : ∀ c ∈ T3.data, c ≠ ' ') :
    ∃ s post : String, format_taxon_name t wt hi wr wc lang = some s ∧
      s = ("*" ++ T1 ++ " " ++ T2 ++ "* " ++ abbr ++ " *" ++ T3 ++ "*") ++ post := by
  have hrank2 : t.rank = "subspecies" ∨ t.rank = "variety" := by
    unfold TRINOMIAL_ABBR at habbr
    split at habbr
    · left; assumption
    · right; assumption
    · exact absurd habbr (by simp)
  have hlv : RANK_LEVELS t.rank = some 5 := by
    rcases hrank2 with hr | hr <;> rw [hr] <;> rfl
  have hsplit := pySplitChar_three T1 T2 T3 h1 h2 h3
  have hg : (RANK_LEVELS "genus").getD 0 = 20 := rfl
  have hsp : (RANK_LEVELS "species").getD 0 = 10 := rfl
  have hres : format_taxon_name t wt hi wr wc lang =
      some ((("*" ++ T1) ++ " " ++ T2 ++ "* " ++ abbr ++ " *" ++ (T3 ++ "*")) ++
        common_suffix (resolve_common t wt hi wc lang) ++
        inactive_suffix t.is_active) := by
    simp only [format_taxon_name, styled_name, hlv, hname, hg, hsp, Option.bind_eq_bind,
      Option.some_bind]
    norm_num [habbr, hsplit]
  refine ⟨_, common_suffix (resolve_common t wt hi wc lang) ++
    inactive_suffix t.is_active, hres, ?_⟩
  apply String.ext
  simp [String.data_append]

/-- Witness for C5: the source docstring's own example, the variety
"Anser anser domesticus", rendered "*Anser anser* var. *domesticus*". -/
theorem c5_trinomial_witness :
    ∃ s post : String,
      format_taxon_name
        { name := "Anser anser domesticus", rank := "variety",
          preferred_common_name := none, matched_term := none, names := [],
          is_active := true, observations_count := 0, id := 1 }
        false false true true none = some s ∧
      s = ("*" ++ "Anser" ++ " " ++ "anser" ++ "* " ++ "var." ++ " *" ++ "domesticus" ++ "*") ++ post :=
  c5_trinomial
    { name := "Anser anser domesticus", rank := "variety",
      preferred_common_name := none, matched_term := none, names := [],
      is_active := true, observations_count := 0, id := 1 }
    false false true true none "var." "Anser" "anser" "domesticus"
    (by decide) (by decide) (by decide) (by decide) (by decide)

/-! ### C9: max_len = 0 never truncates -/

/-- C9: for every list of taxa and every option combination,
`format_taxon_names` with `max_len = 0` bypasses `fit_names` entirely: the
result is the joined list of all formatted names substituted into
`names_format` — every name is included, no "and K more" placeholder is
appended, and no length bound is enforced. -/
theorem c9_no_truncation (taxa : List Taxon) (wt hi : Bool) (lang : Option String)
    (names_format : String) (ns : List String) (s : String)
    (hnames : format_names_list taxa wt hi lang = some ns)
    (hfmt : pct_s names_format (py_join (TAXON_LIST_DELIMITER hi) ns) = some s) :
    format_taxon_names taxa wt names_format 0 hi lang = some s := by
  simp [format_taxon_names, hnames, hfmt]

/-- Witness for C9: two species-rank taxa, rendered in full with no
placeholder despite a joint length that any small budget would reject. -/
theorem c9_no_truncation_witness :
    format_taxon_names
      [{ name := "Aa Bb", rank := "species", preferred_common_name := none,
         matched_term := none, names := [], is_active := true,
         observations_count := 0, id := 1 },
       { name := "Cc Dd", rank := "species", preferred_common_name := none,
         matched_term := none, names := [], is_active := true,
         observations_count := 0, id := 2 }] false "%s" 0 false none =
      some "*Aa Bb*, *Cc Dd*" :=
  c9_no_truncation _ false false none "%s" ["*Aa Bb*", "*Cc Dd*"]
    "*Aa Bb*, *Cc Dd*" (by decide) (by decide)

/-! ### C3: the observation-count description and its plural -/

/-- Modelled from the spec for the original C3 claim text: the number word
of a single digit. -/
def digit_word (c : Char) : String :=
  match c with
  | '0' => "zero"
  | '1' => "one"
  | '2' => "two"
  | '3' => "three"
  | '4' => "four"
  | '5' => "five"
  | '6' => "six"
  | '7' => "seven"
  | '8' => "eight"
  | '9' => "nine"
  | _ => ""

/-- C3 counterexample: at a concrete taxon with `observations_count = 1234`
the description is the link-wrapped "1,234" followed by the *plural*
"observations" — not the singular "observation" the claim states.  The
pluralizer receives the link string, which is never a singular count
token. -/
theorem c3_counterexample :
    obs_count_description
        { name := "X", rank := "genus", preferred_common_name := none,
          matched_term := none, names := [], is_active := true,
          observations_count := 1234, id := 1 } =
      "[1,234](https://www.inaturalist.org/observations?taxon_id=1) observations" ∧
    obs_count_description
        { name := "X", rank := "genus", preferred_common_name := none,
          matched_term := none, names := [], is_active := true,
          observations_count := 1234, id := 1 } ≠
      "[1,234](https://www.inaturalist.org/observations?taxon_id=1) observation" := by
  constructor
  · rfl
  · decide

theorem obs_count_url_ne_empty (t : Taxon) : (obs_count_url t).isEmpty = false := by
  cases h : (obs_count_url t).isEmpty
  · rfl
  · exfalso
    have h2 : obs_count_url t = "" := (String.isEmpty_iff _).mp h
    have h3 := congrArg String.length h2
    rw [obs_count_url, String.length_append, String.length_append] at h3
    have hw : (WWW_BASE_URL).length = 27 := rfl
    have hx : ("/observations?taxon_id=" : String).length = 23 := rfl
    have hz : ("" : String).length = 0 := rfl
    rw [hw, hx, hz] at h3
    omega

theorem plural_observation_link (t : Taxon) (txt : String) :
    plural_observation (format_link txt (some (obs_count_url t))) = "observations" := by
  have hurl := obs_count_url_ne_empty t
  have hform : format_link txt (some (obs_count_url t)) =
      "[" ++ txt ++ "](" ++ obs_count_url t ++ ")" := by
    rw [format_link, hurl]
    simp
  have hlen : 6 ≤ (format_link txt (some (obs_count_url t))).length := by
    rw [hform]
    simp only [String.length_append]
    have hu : 50 ≤ (obs_count_url t).length := by
      rw [obs_count_url, String.length_append, String.length_append]
      have hw : (WWW_BASE_URL).length = 27 := rfl
      have hx : ("/observations?taxon_id=" : String).length = 23 := rfl
      omega
    omega
  have hnotmem : format_link txt (some (obs_count_url t)) ∉ pl_count_one := by
    intro hmem
    simp only [pl_count_one, List.mem_cons, List.not_mem_nil, or_false] at hmem
    rcases hmem with h | h | h | h | h | h | h | h <;> rw [h] at hlen <;>
      revert hlen <;> decide
  have hneg : ¬(pl_count_one.contains (format_link txt (some (obs_count_url t))) = true) := by
    intro hc
    rcases List.contains_iff_exists_mem_beq.mp hc with ⟨a, ham, hbeq⟩
    exact hnotmem (by rw [eq_of_beq hbeq]; exact ham)
  rw [plural_observation, if_neg hneg]

/-- C3 amended: for every taxon with `observations_count = 1234` the
description is the link-wrapped thousands-grouped "1,234" followed by the
*plural* "observations" (the pluralizer is passed the link string, which is
never one of the singular count tokens), and for `observations_count = 2`
the plural "observations" likewise. -/
theorem c3_obs_count_amended (t u : Taxon)
    (ht : t.observations_count = 1234) (hu : u.observations_count = 2) :
    obs_count_description t =
      format_link "1,234" (some (obs_count_url t)) ++ " observations" ∧
    obs_count_description u =
      format_link "2" (some (obs_count_url u)) ++ " observations" := by
  have hjoin : ∀ f : String, f ++ " " ++ "observations" = f ++ " observations" := by
    intro f
    apply String.ext
    rw [String.data_append, String.data_append, String.data_append]
    rw [List.append_assoc]
    rfl
  constructor
  · rw [obs_count_description, obs_count_link, ht]
    have h1 : py_thousands 1234 = "1,234" := rfl
    rw [h1, plural_observation_link t "1,234", hjoin]
  · rw [obs_count_description, obs_count_link, hu]
    have h1 : py_thousands 2 = "2" := rfl
    rw [h1, plural_observation_link u "2", hjoin]

/-- Witness for C3's amended theorem at concrete taxa. -/
theorem c3_obs_count_amended_witness :
    obs_count_description
        { name := "X", rank := "genus", preferred_common_name := none,
          matched_term := none, names := [], is_active := true,
          observations_count := 1234, id := 7 } =
      format_link "1,234" (some (obs_count_url
        { name := "X", rank := "genus", preferred_common_name := none,
          matched_term := none, names := [], is_active := true,
          observations_count := 1234, id := 7 })) ++ " observations" ∧
    obs_count_description
        { name := "Y", rank := "genus", preferred_common_name := none,
          matched_term := none, names := [], is_active := true,
          observations_count := 2, id := 8 } =
      format_link "2" (some (obs_count_url
        { name := "Y", rank := "genus", preferred_common_name := none,
          matched_term := none, names := [], is_active := true,
          observations_count := 2, id := 8 })) ++ " observations" :=
  c3_obs_count_amended _ _ rfl rfl

/-! ### C4: article choice for conservation statuses with digits -/

/-- Modelled from the spec for the original C4 claim text: choose the
article from the status label after converting each embedded digit to its
own number word. -/
def claimed_article (label : String) : Option String :=
  match pySplitWs (String.mk (label.data.flatMap
      (fun c => if c.isDigit then (" " ++ digit_word c ++ " ").data else [c]))) with
  | [] => none
  | w :: _ => some (indef_article w)

/-- C4 counterexample: for the status label "8E" the claim requires the
article chosen from "eight E" (giving "an"), but the code computes the
digit replacement once from the literal backreference text `"\1"`, so every
digit becomes the word "one" and the article is "a". -/
theorem c4_counterexample :
    format_taxon_conservation_status
        { display_name := "8E", authority := "NatureServe", url := some "https://x" }
        true true = some "a [8E](https://x)" ∧
    claimed_article "8E" = some "an" ∧ ("a" : String) ≠ "an" := by
  refine ⟨by decide, by decide, by decide⟩

/-- C4 amended: in brief inflected mode, for every conservation status
whose digit-substituted label has a first word, the result is the
indefinite article chosen from that first word — where each embedded digit
has been replaced by the fixed word "one" (the number-word conversion is
applied to the literal regex backreference `"\1"`, evaluated once, not to
each digit) — followed by the linked label, which keeps the original
numerals; the article is always "a" or "an". -/
theorem c4_article_amended (status : ConservationStatus) (fw : String) (rest : List String)
    (hsplit : pySplitWs (re_sub_digits " one " status.display_name) = fw :: rest) :
    format_taxon_conservation_status status true true =
      some (indef_article fw ++ " " ++ format_link status.display_name status.url) ∧
    (indef_article fw = "a" ∨ indef_article fw = "an") := by
  constructor
  · simp only [format_taxon_conservation_status]
    have hr : (" " ++ number_to_words "\\1" ++ " ") = " one " := rfl
    rw [hr, hsplit]
    simp [py_join]
  · rw [indef_article]
    by_cases h : indef_article_an fw <;> simp [h]

/-- Witness for C4's amended theorem at the concrete status label
"endangered". -/
theorem c4_article_amended_witness :
    format_taxon_conservation_status
        { display_name := "endangered", authority := "IUCN", url := some "https://y" }
        true true =
      some (indef_article "endangered" ++ " " ++
        format_link "endangered" (some "https://y")) ∧
    (indef_article "endangered" = "a" ∨ indef_article "endangered" = "an") :=
  c4_article_amended
    { display_name := "endangered", authority := "IUCN", url := some "https://y" }
    "endangered" [] (by decide)

/-! ### C6: italics exactly at genus level and below -/

theorem suffix_head_ne_star (o : Option String) (a : Bool) :
    (common_suffix o ++ inactive_suffix a).data.head? ≠ some '*' := by
  cases o with
  | none => cases a <;> decide
  | some c =>
    cases hc : c.isEmpty with
    | true =>
      have h1 : common_suffix (some c) = "" := by simp [common_suffix, hc]
      rw [h1]
      cases a <;> decide
    | false =>
      have h1 : common_suffix (some c) = " (" ++ c ++ ")" := by simp [common_suffix, hc]
      rw [h1]
      have h2 : ((" (" ++ c ++ ")") ++ inactive_suffix a).data =
          ' ' :: '(' :: (c.data ++ ([')'] ++ (inactive_suffix a).data)) := by
        simp [String.data_append]
      rw [h2]
      simp

/-- C6: for every taxon, the scientific name in the output of
`format_taxon_name` is wrapped in italic markers (a single asterisk on each
side — split into two italic spans in the trinomial case) if and only if
the taxon's rank level is at most the genus rank level; above genus level
the name appears bare or in double-asterisk bold, never wrapped in a single
asterisk. -/
theorem c6_italics (t : Taxon) (wt hi wr wc : Bool) (lang : Option String) (lv : Nat)
    (s : String) (hlv : RANK_LEVELS t.rank = some lv)
    (hs : format_taxon_name t wt hi wr wc lang = some s) :
    (lv ≤ (RANK_LEVELS "genus").getD 0 →
      ∃ pre post : List Char,
        s.data = pre ++ '*' :: (t.name.data ++ '*' :: post) ∨
        ∃ abbr t1 t2 t3 : String, TRINOMIAL_ABBR t.rank = some abbr ∧
          pySplitChar ' ' ("*" ++ t.name ++ "*") = [t1, t2, t3] ∧
          s.data = pre ++ ((t1 ++ " " ++ t2 ++ "* " ++ abbr ++ " *" ++ t3).data ++ post)) ∧
    ((RANK_LEVELS "genus").getD 0 < lv →
      ∃ pre post b : List Char, (b = [] ∨ b = ['*', '*']) ∧
        s.data = pre ++ (b ++ (t.name.data ++ (b ++ post))) ∧
        pre.getLast? ≠ some '*' ∧ post.head? ≠ some '*') := by
  have hg : (RANK_LEVELS "genus").getD 0 = 20 := rfl
  have hsp10 : (RANK_LEVELS "species").getD 0 = 10 := rfl
  have e1 : ("\n> **" : String).data = ['\n', '>', ' ', '*', '*'] := rfl
  have e2 : ("*" : String).data = ['*'] := rfl
  have e3 : ("**" : String).data = ['*', '*'] := rfl
  have e4 : (" " : String).data = [' '] := rfl
  simp only [format_taxon_name, hlv, Option.bind_eq_bind, Option.some_bind,
    Option.some.injEq] at hs
  have hsuf : (common_suffix (resolve_common t wt hi wc lang) ++
      inactive_suffix t.is_active).data.head? ≠ some '*' :=
    suffix_head_ne_star _ _
  have hsufd : (common_suffix (resolve_common t wt hi wc lang) ++
      inactive_suffix t.is_active).data =
      (common_suffix (resolve_common t wt hi wc lang)).data ++
        (inactive_suffix t.is_active).data := String.data_append _ _
  subst hs
  constructor
  · -- rank level at most genus: italics present
    intro hle
    simp only [styled_name, if_pos hle]
    by_cases hsplv : (RANK_LEVELS "species").getD 0 < lv
    · rw [if_pos hsplv]
      cases hi with
      | true =>
        cases hpr : TAXON_PRIMARY_RANKS.contains t.rank with
        | true =>
          refine ⟨['\n', '>', ' ', '*', '*'],
            '*' :: '*' :: ((common_suffix (resolve_common t wt true wc lang)).data ++
              (inactive_suffix t.is_active).data), Or.inl ?_⟩
          simp [String.data_append, e1, e2, e3]
        | false =>
          refine ⟨[], (common_suffix (resolve_common t wt true wc lang)).data ++
            (inactive_suffix t.is_active).data, Or.inl ?_⟩
          simp [String.data_append, e2]
      | false =>
        cases hwr : wr with
        | true =>
          simp only [Bool.false_eq_true, if_false, if_pos rfl]
          refine ⟨(pyCapitalize t.rank).data ++ [' '],
            (common_suffix (resolve_common t wt false wc lang)).data ++
              (inactive_suffix t.is_active).data, Or.inl ?_⟩
          simp [String.data_append, e2, e4]
        | false =>
          simp only [Bool.false_eq_true, if_false]
          refine ⟨[], (common_suffix (resolve_common t wt false wc lang)).data ++
            (inactive_suffix t.is_active).data, Or.inl ?_⟩
          simp [String.data_append, e2]
    · rw [if_neg hsplv]
      cases habbr2 : TRINOMIAL_ABBR t.rank with
      | none =>
        simp only [habbr2]
        refine ⟨[], (common_suffix (resolve_common t wt hi wc lang)).data ++
          (inactive_suffix t.is_active).data, Or.inl ?_⟩
        simp [String.data_append, e2]
      | some abbr =>
        simp only [habbr2]
        rcases hsplit3 : pySplitChar ' ' ("*" ++ t.name ++ "*") with
          _ | ⟨a1, _ | ⟨a2, _ | ⟨a3, _ | ⟨a4, arest⟩⟩⟩⟩
        · simp only [hsplit3]
          refine ⟨[], (common_suffix (resolve_common t wt hi wc lang)).data ++
            (inactive_suffix t.is_active).data, Or.inl ?_⟩
          simp [String.data_append, e2]
        · simp only [hsplit3]
          refine ⟨[], (common_suffix (resolve_common t wt hi wc lang)).data ++
            (inactive_suffix t.is_active).data, Or.inl ?_⟩
          simp [String.data_append, e2]
        · simp only [hsplit3]
          refine ⟨[], (common_suffix (resolve_common t wt hi wc lang)).data ++
            (inactive_suffix t.is_active).data, Or.inl ?_⟩
          simp [String.data_append, e2]
        · simp only [hsplit3]
          refine ⟨[], (common_suffix (resolve_common t wt hi wc lang)).data ++
            (inactive_suffix t.is_active).data,
            Or.inr ⟨abbr, a1, a2, a3, rfl, rfl, ?_⟩⟩
          simp [String.data_append]
        · simp only [hsplit3]
          refine ⟨[], (common_suffix (resolve_common t wt hi wc lang)).data ++
            (inactive_suffix t.is_active).data, Or.inl ?_⟩
          simp [String.data_append, e2]
  · -- rank level above genus: no italic wrapping of the name
    intro hgt
    have hnotle : ¬ lv ≤ (RANK_LEVELS "genus").getD 0 := by omega
    have hsplv : (RANK_LEVELS "species").getD 0 < lv := by rw [hsp10]; rw [hg] at hgt; omega
    simp only [styled_name, if_neg hnotle, if_pos hsplv]
    cases hi with
    | true =>
      cases hpr : TAXON_PRIMARY_RANKS.contains t.rank with
      | true =>
        refine ⟨['\n', '>', ' '],
          (common_suffix (resolve_common t wt true wc lang)).data ++
            (inactive_suffix t.is_active).data, ['*', '*'], Or.inr rfl, ?_, by decide, ?_⟩
        · simp [String.data_append, e1, e3]
        · rw [← hsufd]; exact hsuf
      | false =>
        refine ⟨[], (common_suffix (resolve_common t wt true wc lang)).data ++
          (inactive_suffix t.is_active).data, [], Or.inl rfl, ?_, by decide, ?_⟩
        · simp [String.data_append]
        · rw [← hsufd]; exact hsuf
    | false =>
      cases hwr : wr with
      | true =>
        simp only [Bool.false_eq_true, if_false, if_pos rfl]
        refine ⟨(pyCapitalize t.rank).data ++ [' '],
          (common_suffix (resolve_common t wt false wc lang)).data ++
            (inactive_suffix t.is_active).data, [], Or.inl rfl, ?_, ?_, ?_⟩
        · simp [String.data_append, e4]
        · rw [List.getLast?_concat]
          decide
        · rw [← hsufd]; exact hsuf
      | false =>
        simp only [Bool.false_eq_true, if_false]
        refine ⟨[], (common_suffix (resolve_common t wt false wc lang)).data ++
          (inactive_suffix t.is_active).data, [], Or.inl rfl, ?_, by decide, ?_⟩
        · simp [String.data_append]
        · rw [← hsufd]; exact hsuf

/-- A concrete genus-rank taxon used to witness C6. -/
def c6_taxon : Taxon :=
  { name := "Taraxacum", rank := "genus", preferred_common_name := none,
    matched_term := none, names := [], is_active := true,
    observations_count := 0, id := 3 }

/-- Witness for C6 at the genus-rank taxon Taraxacum, rendered
"Genus *Taraxacum*". -/
theorem c6_italics_witness :
    (20 ≤ (RANK_LEVELS "genus").getD 0 →
      ∃ pre post : List Char,
        ("Genus *Taraxacum*" : String).data =
          pre ++ '*' :: (c6_taxon.name.data ++ '*' :: post) ∨
        ∃ abbr t1 t2 t3 : String, TRINOMIAL_ABBR c6_taxon.rank = some abbr ∧
          pySplitChar ' ' ("*" ++ c6_taxon.name ++ "*") = [t1, t2, t3] ∧
          ("Genus *Taraxacum*" : String).data =
            pre ++ ((t1 ++ " " ++ t2 ++ "* " ++ abbr ++ " *" ++ t3).data ++ post)) ∧
    ((RANK_LEVELS "genus").getD 0 < 20 →
      ∃ pre post b : List Char, (b = [] ∨ b = ['*', '*']) ∧
        ("Genus *Taraxacum*" : String).data =
          pre ++ (b ++ (c6_taxon.name.data ++ (b ++ post))) ∧
        pre.getLast? ≠ some '*' ∧ post.head? ≠ some '*') :=
  c6_italics c6_taxon false false true true none 20 "Genus *Taraxacum*"
    (by decide) (by decide)

/-! ### C1: length-bounded truncation with the "and K more" placeholder -/

theorem formatted_len_reverse (d : String) (l : List String) (m : String) :
    formatted_len d l.reverse m = formatted_len d l m := by
  unfold formatted_len
  rw [List.map_reverse, List.sum_reverse]

theorem py_join_append_len (d : String) (l : List String) (m : String) :
    (py_join d (l ++ [m])).length = formatted_len d l m := by
  induction l with
  | nil =>
    show (py_join d [m]).length = _
    simp [py_join, formatted_len]
  | cons x xs ih =>
    cases xs with
    | nil =>
      show (x ++ d ++ py_join d [m]).length = _
      show (x ++ d ++ m).length = _
      rw [String.length_append, String.length_append]
      simp [formatted_len]
    | cons y ys =>
      show (x ++ d ++ py_join d ((y :: ys) ++ [m])).length = _
      rw [String.length_append, String.length_append, ih]
      simp [formatted_len]
      omega

theorem py_join_ends (d : String) (l : List String) (m : String) :
    ∃ mid : List Char, (py_join d (l ++ [m])).data = mid ++ m.data := by
  induction l with
  | nil => exact ⟨[], by simp [py_join]⟩
  | cons x xs ih =>
    cases xs with
    | nil => exact ⟨(x ++ d).data, by simp [py_join, String.data_append]⟩
    | cons y ys =>
      obtain ⟨mid, hmid⟩ := ih
      refine ⟨(x ++ d).data ++ mid, ?_⟩
      show (x ++ d ++ py_join d ((y :: ys) ++ [m])).data = _
      rw [String.data_append, String.data_append, hmid]
      simp [List.append_assoc]

theorem fit_shrink_spec (d : String) (avail : Int) (rfit : List String) :
    ∀ (u : Nat) (l : List String), fit_shrink d avail rfit u = some l →
      ∃ f u2, u ≤ u2 ∧ l = f ++ [more u2] ∧ ((py_join d l).length : Int) ≤ avail := by
  induction rfit with
  | nil =>
    intro u l h
    unfold fit_shrink at h
    by_cases hov : avail < (formatted_len d [] (more u) : Int)
    · rw [if_pos hov] at h
      simp at h
    · rw [if_neg hov] at h
      have hl := Option.some.inj h
      refine ⟨[], u, le_refl u, hl.symm, ?_⟩
      rw [← hl]
      simp only [List.reverse_nil, List.nil_append]
      have : (py_join d [more u]).length = formatted_len d [] (more u) :=
        py_join_append_len d [] (more u)
      rw [this]
      exact not_lt.mp hov
  | cons x xs ih =>
    intro u l h
    unfold fit_shrink at h
    by_cases hov : avail < (formatted_len d (x :: xs) (more u) : Int)
    · rw [if_pos hov] at h
      simp only at h
      obtain ⟨f, u2, hu, hl, hlen⟩ := ih (u + 1) l h
      exact ⟨f, u2, by omega, hl, hlen⟩
    · rw [if_neg hov] at h
      have hl := Option.some.inj h
      refine ⟨(x :: xs).reverse, u, le_refl u, hl.symm, ?_⟩
      rw [← hl, py_join_append_len, formatted_len_reverse]
      exact not_lt.mp hov

theorem fit_go_spec (d : String) (avail : Int) (rem : List String) :
    ∀ (racc l : List String), fit_go d avail racc rem = some l →
      (l = racc.reverse ++ rem ∧
        (rem ≠ [] → ((py_join d l).length : Int) ≤ avail)) ∨
      ∃ f u, 1 ≤ u ∧ l = f ++ [more u] ∧ ((py_join d l).length : Int) ≤ avail := by
  induction rem with
  | nil =>
    intro racc l h
    left
    unfold fit_go at h
    have hl := Option.some.inj h
    exact ⟨by rw [← hl]; simp, fun hne => absurd rfl hne⟩
  | cons name rest ih =>
    intro racc l h
    unfold fit_go at h
    by_cases hov : avail < (formatted_len d racc name : Int)
    · rw [if_pos hov] at h
      right
      obtain ⟨f, u2, hu, hl, hlen⟩ := fit_shrink_spec d avail racc (rest.length + 1) l h
      exact ⟨f, u2, by omega, hl, hlen⟩
    · rw [if_neg hov] at h
      rcases ih (name :: racc) l h with ⟨hl, hrest⟩ | hr
      · left
        refine ⟨by rw [hl]; simp, fun _ => ?_⟩
        cases rest with
        | nil =>
          have hl2 : l = racc.reverse ++ [name] := by rw [hl]; simp
          rw [hl2, py_join_append_len, formatted_len_reverse]
          exact not_lt.mp hov
        | cons r rs => exact hrest (by simp)
      · right
        exact hr

theorem percent_split_length :
    ∀ (a cs b : List Char), percent_split cs = some (a, b) →
      cs.length = a.length + 2 + b.length := by
  intro a
  induction a with
  | nil =>
    intro cs b h
    unfold percent_split at h
    split at h
    · simp at h
    · split at h
      · simp at h
      · simp only [Option.some.injEq, Prod.mk.injEq, true_and] at h
        simp [← h]
        omega
    · split at h
      · simp at h
      · simp at h
  | cons c a2 ih =>
    intro cs b h
    unfold percent_split at h
    split at h
    · simp at h
    · split at h
      · simp at h
      · simp at h
    · rename_i cc crest hno
      split at h
      · rename_i pre post heq
        simp only [Option.some.injEq, Prod.mk.injEq, List.cons.injEq] at h
        obtain ⟨⟨hc, hpre⟩, hpost⟩ := h
        subst hpre
        subst hpost
        have hrec := ih crest _ heq
        simp [List.length_cons, hrec]
        omega
      · simp at h

theorem format_names_list_ne_nil (t : Taxon) (ts : List Taxon) (wt hi : Bool)
    (lang : Option String) (ns : List String)
    (h : format_names_list (t :: ts) wt hi lang = some ns) : ns ≠ [] := by
  unfold format_names_list at h
  cases hft : format_taxon_name t wt hi true true lang with
  | none => rw [hft] at h; simp at h
  | some n =>
    cases hfl : format_names_list ts wt hi lang with
    | none => rw [hft, hfl] at h; simp at h
    | some ns2 =>
      rw [hft, hfl] at h
      simp at h
      rw [← h]
      simp

/-- C1 counterexample: with one species-rank taxon, `names_format = "%s"`
and `max_len = 1` — a non-empty taxon list, a positive budget, and a name
that does not fit — `format_taxon_names` returns no string at all: the
shrink loop's `del names_fit[-1]` executes on an empty list
(`IndexError`, modelled as `none`), so the claimed "and K more" suffix and
length bound cannot hold. -/
theorem c1_counterexample :
    format_taxon_names
      [{ name := "Aa Bb", rank := "species", preferred_common_name := none,
         matched_term := none, names := [], is_active := true,
         observations_count := 0, id := 1 }] false "%s" 1 false none = none := by
  decide

/-- C1 amended: for every non-empty list of taxa and every `max_len > 0`
such that not all formatted names fit, *provided the truncation loop
completes without fault* (the source faults for budgets too small to hold
the growing placeholder), the returned string consists of the format
string's fixed parts around a joined list ending in "and K more" for some
K ≥ 1, and its total length is at most `max_len`. -/
theorem c1_truncation_amended
    (taxa : List Taxon) (wt hi : Bool) (lang : Option String)
    (names_format : String) (max_len : Int)
    (fpre fpost : List Char) (ns : List String) (s : String)
    (htaxa : taxa ≠ [])
    (hmax : 0 < max_len)
    (hfmt : percent_split names_format.data = some (fpre, fpost))
    (hnames : format_names_list taxa wt hi lang = some ns)
    (hnofit : max_len < ((py_join (TAXON_LIST_DELIMITER hi) ns).length : Int) +
      ((names_format.length : Int) - 2))
    (hs : format_taxon_names taxa wt names_format max_len hi lang = some s) :
    ∃ K : Nat, 1 ≤ K ∧
      (∃ mid : List Char, s.data = fpre ++ (mid ++ ((more K).data ++ fpost))) ∧
      (s.length : Int) ≤ max_len := by
  have hmaxne : max_len ≠ 0 := by omega
  simp only [format_taxon_names, hnames, Option.bind_eq_bind, Option.some_bind,
    if_pos hmaxne] at hs
  cases hfit : fit_names ns max_len names_format (TAXON_LIST_DELIMITER hi) with
  | none => rw [hfit] at hs; simp at hs
  | some lfit =>
    rw [hfit] at hs
    simp only [Option.some_bind] at hs
    unfold pct_s at hs
    rw [hfmt] at hs
    simp only [Option.some.injEq] at hs
    unfold fit_names at hfit
    rcases fit_go_spec (TAXON_LIST_DELIMITER hi)
        (max_len - ((names_format.length : Int) - 2)) ns [] lfit hfit with
      ⟨hl, hrem⟩ | ⟨f, u, hu, hl, hlen⟩
    · exfalso
      have hns : ns ≠ [] := by
        cases taxa with
        | nil => exact absurd rfl htaxa
        | cons t ts => exact format_names_list_ne_nil t ts wt hi lang ns hnames
      have hl2 : lfit = ns := by rw [hl]; simp
      have hle := hrem hns
      rw [hl2] at hle
      omega
    · refine ⟨u, hu, ?_, ?_⟩
      · obtain ⟨mid, hmid⟩ := py_join_ends (TAXON_LIST_DELIMITER hi) f (more u)
        refine ⟨mid, ?_⟩
        rw [← hs]
        show fpre ++ (py_join (TAXON_LIST_DELIMITER hi) lfit).data ++ fpost =
          fpre ++ (mid ++ ((more u).data ++ fpost))
        rw [hl, hmid]
        simp [List.append_assoc]
      · have hfl : names_format.data.length = fpre.length + 2 + fpost.length :=
          percent_split_length fpre names_format.data fpost hfmt
        have hsl : s.length =
            fpre.length + (py_join (TAXON_LIST_DELIMITER hi) lfit).length + fpost.length := by
          rw [← hs]
          show (fpre ++ (py_join (TAXON_LIST_DELIMITER hi) lfit).data ++ fpost).length = _
          rw [List.length_append, List.length_append]
          rfl
        have hnl : names_format.length = names_format.data.length := rfl
        omega

/-- Witness for C1's amended theorem: three species-rank taxa truncated at
`max_len = 24` to "*Aa Bb*, and 2 more". -/
theorem c1_truncation_amended_witness :
    ∃ K : Nat, 1 ≤ K ∧
      (∃ mid : List Char, ("*Aa Bb*, and 2 more" : String).data =
        [] ++ (mid ++ ((more K).data ++ []))) ∧
      (("*Aa Bb*, and 2 more" : String).length : Int) ≤ 24 :=
  c1_truncation_amended
    [{ name := "Aa Bb", rank := "species", preferred_common_name := none,
       matched_term := none, names := [], is_active := true,
       observations_count := 0, id := 1 },
     { name := "Cc Dd", rank := "species", preferred_common_name := none,
       matched_term := none, names := [], is_active := true,
       observations_count := 0, id := 2 },
     { name := "Ee Ff", rank := "species", preferred_common_name := none,
       matched_term := none, names := [], is_active := true,
       observations_count := 0, id := 3 }] false false none "%s" 24
    [] [] ["*Aa Bb*", "*Cc Dd*", "*Ee Ff*"] "*Aa Bb*, and 2 more"
    (by decide) (by decide) (by decide) (by decide) (by decide) (by decide)

end Dronefly
